import Mathlib

/-! Formal model of the weather-data-collector batch job (src/main.py) and proofs of its
observable properties. JSON values are modelled by the inductive type Json, with numbers
idealized as integers; the Python json serializer is modelled by ser together with a
verified parser parseF, the datetime clock is an explicit DateTime argument, and the
network, the object store and the filesystem are oracles gathered in a Behavior record.
The orchestrator main is modelled as a function from a configuration and a behavior to
the trace of observable events the run performs. -/

namespace WDC

inductive Json where
  | null : Json
  | bool (b : Bool) : Json
  | num (n : Int) : Json
  | str (s : String) : Json
  | arr (elems : List Json) : Json
  | obj (fields : List (String × Json)) : Json

def digitChar (n : Nat) : Char := Char.ofNat (48 + n)

def natChars (n : Nat) : List Char :=
  if _h : n < 10 then [digitChar n]
  else natChars (n / 10) ++ [digitChar (n % 10)]
decreasing_by exact Nat.div_lt_self (by omega) (by omega)

def intChars (i : Int) : List Char :=
  if i < 0 then '-' :: natChars i.natAbs else natChars i.toNat

def hexDigitChar (n : Nat) : Char :=
  if n < 10 then Char.ofNat (48 + n) else Char.ofNat (87 + n)

def escChar (c : Char) : List Char :=
  if c = '"' then ['\\', '"']
  else if c = '\\' then ['\\', '\\']
  else if c.toNat < 32 then
    ['\\', 'u', '0', '0', hexDigitChar (c.toNat / 16), hexDigitChar (c.toNat % 16)]
  else [c]

def escStr : List Char → List Char
  | [] => []
  | c :: cs => escChar c ++ escStr cs

def nullChars : List Char := ['n', 'u', 'l', 'l']

def trueChars : List Char := ['t', 'r', 'u', 'e']

def falseChars : List Char := ['f', 'a', 'l', 's', 'e']

mutual

def ser : Json → List Char
  | .null => nullChars
  | .bool true => trueChars
  | .bool false => falseChars
  | .num i => intChars i
  | .str s => '"' :: (escStr s.data ++ ['"'])
  | .arr elems => '[' :: (serItems elems ++ [']'])
  | .obj fields => Char.ofNat 123 :: (serFields fields ++ [Char.ofNat 125])

def serItems : List Json → List Char
  | [] => []
  | x :: xs => ser x ++ (if xs.isEmpty then [] else ',' :: serItems xs)

def serFields : List (String × Json) → List Char
  | [] => []
  | (k, v) :: rest =>
      ('"' :: (escStr k.data ++ ('"' :: ':' :: ser v))) ++
        (if rest.isEmpty then [] else ',' :: serFields rest)

end

def isDigitC (c : Char) : Bool := decide (48 ≤ c.toNat ∧ c.toNat ≤ 57)

def digitHead : List Char → Bool
  | [] => false
  | c :: _ => isDigitC c

def parseNatAux (acc : Nat) : List Char → Nat × List Char
  | [] => (acc, [])
  | c :: rest =>
    if isDigitC c then parseNatAux (acc * 10 + (c.toNat - 48)) rest else (acc, c :: rest)

def hexVal (c : Char) : Option Nat :=
  if 48 ≤ c.toNat ∧ c.toNat ≤ 57 then some (c.toNat - 48)
  else if 97 ≤ c.toNat ∧ c.toNat ≤ 102 then some (c.toNat - 87)
  else if 65 ≤ c.toNat ∧ c.toNat ≤ 70 then some (c.toNat - 55)
  else none

def parseStrAux : Nat → List Char → List Char → Option (List Char × List Char)
  | 0, _, _ => none
  | fuel + 1, acc, cs =>
    match cs with
    | [] => none
    | c :: rest =>
      if c = '"' then some (acc.reverse, rest)
      else if c = '\\' then
        match rest with
        | [] => none
        | esc :: rest2 =>
          if esc = '"' then parseStrAux fuel ('"' :: acc) rest2
          else if esc = '\\' then parseStrAux fuel ('\\' :: acc) rest2
          else if esc = 'u' then
            match rest2 with
            | h1 :: h2 :: h3 :: h4 :: rest3 =>
              match hexVal h1, hexVal h2, hexVal h3, hexVal h4 with
              | some a, some b, some c2, some d =>
                parseStrAux fuel (Char.ofNat (((a * 16 + b) * 16 + c2) * 16 + d) :: acc) rest3
              | _, _, _, _ => none
            | _ => none
          else none
      else parseStrAux fuel (c :: acc) rest

inductive PMode where
  | val : PMode
  | arrStart : PMode
  | objStart : PMode
  | arrItems (acc : List Json) : PMode
  | objItems (acc : List (String × Json)) : PMode

def parseF : Nat → PMode → List Char → Option (Json × List Char)
  | 0, _, _ => none
  | fuel + 1, mode, cs =>
    match mode with
    | .val =>
      match cs with
      | [] => none
      | c :: r =>
        if c = 'n' then
          match r with
          | 'u' :: 'l' :: 'l' :: r2 => some (.null, r2)
          | _ => none
        else if c = 't' then
          match r with
          | 'r' :: 'u' :: 'e' :: r2 => some (.bool true, r2)
          | _ => none
        else if c = 'f' then
          match r with
          | 'a' :: 'l' :: 's' :: 'e' :: r2 => some (.bool false, r2)
          | _ => none
        else if c = '"' then
          match parseStrAux (r.length + 1) [] r with
          | some (scs, r2) => some (.str (String.mk scs), r2)
          | none => none
        else if c = '[' then parseF fuel .arrStart r
        else if c = Char.ofNat 123 then parseF fuel .objStart r
        else if c = '-' then
          match r with
          | [] => none
          | c2 :: r2 =>
            if isDigitC c2 then
              some (.num (-(((parseNatAux 0 (c2 :: r2)).1 : Nat) : Int)),
                (parseNatAux 0 (c2 :: r2)).2)
            else none
        else if isDigitC c then
          some (.num (((parseNatAux 0 (c :: r)).1 : Nat) : Int), (parseNatAux 0 (c :: r)).2)
        else none
    | .arrStart =>
      match cs with
      | [] => none
      | c :: r => if c = ']' then some (.arr [], r) else parseF fuel (.arrItems []) (c :: r)
    | .objStart =>
      match cs with
      | [] => none
      | c :: r =>
        if c = Char.ofNat 125 then some (.obj [], r) else parseF fuel (.objItems []) (c :: r)
    | .arrItems acc =>
      match parseF fuel .val cs with
      | none => none
      | some (v, r) =>
        match r with
        | ',' :: r2 => parseF fuel (.arrItems (v :: acc)) r2
        | ']' :: r2 => some (.arr (v :: acc).reverse, r2)
        | _ => none
    | .objItems acc =>
      match cs with
      | '"' :: r =>
        match parseStrAux (r.length + 1) [] r with
        | none => none
        | some (kcs, r2) =>
          match r2 with
          | ':' :: r3 =>
            match parseF fuel .val r3 with
            | none => none
            | some (v, r4) =>
              match r4 with
              | ',' :: r5 => parseF fuel (.objItems ((String.mk kcs, v) :: acc)) r5
              | c5 :: r5 =>
                if c5 = Char.ofNat 125 then
                  some (.obj ((String.mk kcs, v) :: acc).reverse, r5)
                else none
              | _ => none
          | _ => none
      | _ => none

def parseJson (cs : List Char) : Option Json :=
  match parseF (2 * cs.length + 2) .val cs with
  | some (j, []) => some j
  | _ => none

-- Serializer and parser round-trip lemmas.

theorem mk_data (s : String) : String.mk s.data = s := rfl

theorem hexVal_hexDigitChar : ∀ n, n < 16 → hexVal (hexDigitChar n) = some n := by decide

theorem isDigitC_digitChar : ∀ n, n < 10 → isDigitC (digitChar n) = true := by decide

theorem digitChar_toNat : ∀ n, n < 10 → (digitChar n).toNat = 48 + n := by decide

theorem natChars_digits (n : Nat) : ∀ c ∈ natChars n, isDigitC c = true := by
  induction n using Nat.strong_induction_on with
  | _ n ih =>
    intro c hc
    rw [natChars] at hc
    split at hc
    · next h =>
      simp only [List.mem_singleton] at hc
      subst hc
      exact isDigitC_digitChar n h
    · next h =>
      rcases List.mem_append.mp hc with h1 | h2
      · exact ih (n / 10) (Nat.div_lt_self (by omega) (by omega)) c h1
      · simp only [List.mem_singleton] at h2
        subst h2
        exact isDigitC_digitChar _ (Nat.mod_lt _ (by omega))

theorem natChars_ne_nil (n : Nat) : natChars n ≠ [] := by
  rw [natChars]; split <;> simp

theorem natChars_head (n : Nat) :
    ∃ c cs, natChars n = c :: cs ∧ isDigitC c = true := by
  cases h : natChars n with
  | nil => exact absurd h (natChars_ne_nil n)
  | cons c cs =>
    exact ⟨c, cs, rfl, natChars_digits n c (by rw [h]; exact List.mem_cons_self c cs)⟩

def stepD (a : Nat) (c : Char) : Nat := a * 10 + (c.toNat - 48)

theorem parseNatAux_digits :
    ∀ ds, (∀ c ∈ ds, isDigitC c = true) → ∀ acc rest, digitHead rest = false →
      parseNatAux acc (ds ++ rest) = (ds.foldl stepD acc, rest) := by
  intro ds
  induction ds with
  | nil =>
    intro _ acc rest hr
    cases rest with
    | nil => rfl
    | cons c r =>
      simp only [digitHead] at hr
      simp [parseNatAux, hr]
  | cons d ds ih =>
    intro h acc rest hr
    have hd : isDigitC d = true := h d (List.mem_cons_self d ds)
    rw [List.cons_append]
    rw [show parseNatAux acc (d :: (ds ++ rest)) =
        parseNatAux (acc * 10 + (d.toNat - 48)) (ds ++ rest) by simp [parseNatAux, hd]]
    rw [ih (fun c hc => h c (List.mem_cons_of_mem d hc)) _ rest hr]
    rfl

def tenPow (n : Nat) : Nat :=
  if _h : n < 10 then 10 else tenPow (n / 10) * 10
decreasing_by exact Nat.div_lt_self (by omega) (by omega)

theorem natChars_foldl (n : Nat) : ∀ acc, (natChars n).foldl stepD acc = acc * tenPow n + n := by
  induction n using Nat.strong_induction_on with
  | _ n ih =>
    intro acc
    rw [natChars, tenPow]
    split
    · next h =>
      simp [stepD, digitChar_toNat n h]
    · next h =>
      rw [List.foldl_append]
      rw [ih (n / 10) (Nat.div_lt_self (by omega) (by omega))]
      simp only [List.foldl_cons, List.foldl_nil, stepD]
      rw [digitChar_toNat _ (Nat.mod_lt _ (by omega))]
      have hmod : 48 + n % 10 - 48 = n % 10 := by omega
      rw [hmod]
      have : (acc * tenPow (n / 10) + n / 10) * 10 + n % 10 =
          acc * (tenPow (n / 10) * 10) + (n / 10 * 10 + n % 10) := by ring
      rw [this]
      congr 1
      omega

theorem parseNat_natChars (n : Nat) (rest : List Char) (hr : digitHead rest = false) :
    parseNatAux 0 (natChars n ++ rest) = (n, rest) := by
  rw [parseNatAux_digits _ (natChars_digits n) 0 rest hr, natChars_foldl]
  simp

theorem escStr_len_ge : ∀ cs : List Char, cs.length ≤ (escStr cs).length := by
  intro cs
  induction cs with
  | nil => simp [escStr]
  | cons c cs ih =>
    simp only [escStr, List.length_append, List.length_cons]
    have : 1 ≤ (escChar c).length := by
      unfold escChar; split_ifs <;> simp
    omega

theorem parseStrAux_other (f : Nat) (acc : List Char) (c : Char) (X : List Char)
    (h1 : ¬c = '"') (h2 : ¬c = '\\') :
    parseStrAux (f + 1) acc (c :: X) = parseStrAux f (c :: acc) X := by
  simp [parseStrAux, h1, h2]

theorem parseStr_round :
    ∀ cs : List Char, ∀ fuel acc rest, cs.length < fuel →
      parseStrAux fuel acc (escStr cs ++ '"' :: rest) = some (acc.reverse ++ cs, rest) := by
  intro cs
  induction cs with
  | nil =>
    intro fuel acc rest h
    cases fuel with
    | zero => omega
    | succ f =>
      show parseStrAux (f + 1) acc ('"' :: rest) = _
      simp [parseStrAux]
  | cons c cs ih =>
    intro fuel acc rest h
    cases fuel with
    | zero => omega
    | succ f =>
      have hlen : cs.length < f := by simp at h; omega
      by_cases h1 : c = '"'
      · subst h1
        have he : escChar '"' = ['\\', '"'] := by simp [escChar]
        simp only [escStr, he, List.cons_append, List.append_assoc]
        show parseStrAux f ('"' :: acc) (escStr cs ++ '"' :: rest) = _
        rw [ih f ('"' :: acc) rest hlen]
        simp
      · by_cases h2 : c = '\\'
        · subst h2
          have he : escChar '\\' = ['\\', '\\'] := by simp [escChar]
          simp only [escStr, he, List.cons_append, List.append_assoc]
          show parseStrAux f ('\\' :: acc) (escStr cs ++ '"' :: rest) = _
          rw [ih f ('\\' :: acc) rest hlen]
          simp
        · by_cases h3 : c.toNat < 32
          · have he : escChar c =
                ['\\', 'u', '0', '0', hexDigitChar (c.toNat / 16), hexDigitChar (c.toNat % 16)] := by
              simp [escChar, h1, h2, h3]
            simp only [escStr, he, List.cons_append, List.append_assoc]
            have e3 : hexVal (hexDigitChar (c.toNat / 16)) = some (c.toNat / 16) :=
              hexVal_hexDigitChar _ (by omega)
            have e4 : hexVal (hexDigitChar (c.toNat % 16)) = some (c.toNat % 16) :=
              hexVal_hexDigitChar _ (by omega)
            show (match hexVal '0', hexVal '0', hexVal (hexDigitChar (c.toNat / 16)),
                hexVal (hexDigitChar (c.toNat % 16)) with
              | some a, some b, some c2, some d =>
                parseStrAux f (Char.ofNat (((a * 16 + b) * 16 + c2) * 16 + d) :: acc)
                  (escStr cs ++ '"' :: rest)
              | _, _, _, _ => none) = _
            rw [e3, e4]
            show parseStrAux f
                (Char.ofNat (((0 * 16 + 0) * 16 + c.toNat / 16) * 16 + c.toNat % 16) :: acc)
                (escStr cs ++ '"' :: rest) = _
            have hval : ((0 * 16 + 0) * 16 + c.toNat / 16) * 16 + c.toNat % 16 = c.toNat := by
              omega
            rw [hval, Char.ofNat_toNat]
            rw [ih f (c :: acc) rest hlen]
            simp
          · have he : escChar c = [c] := by simp [escChar, h1, h2, h3]
            simp only [escStr, he, List.cons_append, List.nil_append]
            rw [parseStrAux_other f acc c _ h1 h2]
            rw [ih f (c :: acc) rest hlen]
            simp

mutual

def cost : Json → Nat
  | .null => 1
  | .bool _ => 1
  | .num _ => 1
  | .str _ => 1
  | .arr elems => 2 + costItems elems
  | .obj fields => 2 + costFields fields

def costItems : List Json → Nat
  | [] => 1
  | x :: xs => 1 + cost x + costItems xs

def costFields : List (String × Json) → Nat
  | [] => 1
  | (_, v) :: rest => 1 + cost v + costFields rest

end

theorem cost_pos (j : Json) : 1 ≤ cost j := by
  cases j <;> simp only [cost] <;> omega

theorem costItems_pos (xs : List Json) : 1 ≤ costItems xs := by
  cases xs <;> simp only [costItems] <;> omega

theorem costFields_pos (kvs : List (String × Json)) : 1 ≤ costFields kvs := by
  cases kvs with
  | nil => simp only [costFields]; omega
  | cons kv rest => rcases kv with ⟨k, v⟩; simp only [costFields]; omega

theorem isDigitC_not_special (c : Char) (h : isDigitC c = true) :
    ¬c = 'n' ∧ ¬c = 't' ∧ ¬c = 'f' ∧ ¬c = '"' ∧ ¬c = '[' ∧ ¬c = Char.ofNat 123 ∧ ¬c = '-' ∧
      ¬c = ']' ∧ ¬c = ',' := by
  refine ⟨?_, ?_, ?_, ?_, ?_, ?_, ?_, ?_, ?_⟩ <;>
    · intro he; subst he; revert h; decide

theorem ser_head (j : Json) : ∃ c cs, ser j = c :: cs ∧ ¬c = ']' := by
  cases j with
  | null => exact ⟨'n', ['u', 'l', 'l'], by simp [ser, nullChars], by decide⟩
  | bool b => cases b with
    | true => exact ⟨'t', ['r', 'u', 'e'], by simp [ser, trueChars], by decide⟩
    | false => exact ⟨'f', ['a', 'l', 's', 'e'], by simp [ser, falseChars], by decide⟩
  | num i =>
    by_cases hi : i < 0
    · exact ⟨'-', natChars i.natAbs, by simp [ser, intChars, hi], by decide⟩
    · obtain ⟨c, cs, hnc, hdg⟩ := natChars_head i.toNat
      exact ⟨c, cs, by simp [ser, intChars, hi, hnc], (isDigitC_not_special c hdg).2.2.2.2.2.2.2.1⟩
  | str s => exact ⟨'"', escStr s.data ++ ['"'], by simp [ser], by decide⟩
  | arr elems => exact ⟨'[', serItems elems ++ [']'], by simp [ser], by decide⟩
  | obj fields =>
    exact ⟨Char.ofNat 123, serFields fields ++ [Char.ofNat 125], by simp [ser], by decide⟩

theorem parseF_digit (fuel : Nat) (c : Char) (r : List Char) (h : isDigitC c = true) :
    parseF (fuel + 1) .val (c :: r) =
      some (.num (((parseNatAux 0 (c :: r)).1 : Nat) : Int), (parseNatAux 0 (c :: r)).2) := by
  obtain ⟨hn, ht, hf, hq, hb, ho, hm, _, _⟩ := isDigitC_not_special c h
  simp [parseF, hn, ht, hf, hq, hb, ho, hm, h]

theorem parseF_arrStart_cons (f : Nat) (c : Char) (r : List Char) (h : ¬c = ']') :
    parseF (f + 1) .arrStart (c :: r) = parseF f (.arrItems []) (c :: r) := by
  show (if c = ']' then some (Json.arr [], r) else parseF f (.arrItems []) (c :: r)) = _
  rw [if_neg h]

theorem parseF_objStart_quote (f : Nat) (X : List Char) :
    parseF (f + 1) .objStart ('"' :: X) = parseF f (.objItems []) ('"' :: X) := rfl

theorem parseF_arrItems_eq (fuel : Nat) (cs : List Char) (acc : List Json) :
    parseF (fuel + 1) (.arrItems acc) cs =
      match parseF fuel .val cs with
      | none => none
      | some (v, r) =>
        match r with
        | ',' :: r2 => parseF fuel (.arrItems (v :: acc)) r2
        | ']' :: r2 => some (.arr (v :: acc).reverse, r2)
        | _ => none := rfl

theorem parseF_objItems_cons (fuel : Nat) (r : List Char) (acc : List (String × Json)) :
    parseF (fuel + 1) (.objItems acc) ('"' :: r) =
      match parseStrAux (r.length + 1) [] r with
      | none => none
      | some (kcs, r2) =>
        match r2 with
        | ':' :: r3 =>
          match parseF fuel .val r3 with
          | none => none
          | some (v, r4) =>
            match r4 with
            | ',' :: r5 => parseF fuel (.objItems ((String.mk kcs, v) :: acc)) r5
            | c5 :: r5 =>
              if c5 = Char.ofNat 125 then
                some (.obj ((String.mk kcs, v) :: acc).reverse, r5)
              else none
            | _ => none
        | _ => none := rfl

theorem parse_round : ∀ fuel : Nat,
    (∀ j rest, cost j ≤ fuel → digitHead rest = false →
      parseF fuel .val (ser j ++ rest) = some (j, rest)) ∧
    (∀ x xs acc rest, costItems (x :: xs) ≤ fuel →
      parseF fuel (.arrItems acc) (serItems (x :: xs) ++ ']' :: rest) =
        some (.arr (acc.reverse ++ x :: xs), rest)) ∧
    (∀ k v kvs acc rest, costFields ((k, v) :: kvs) ≤ fuel →
      parseF fuel (.objItems acc) (serFields ((k, v) :: kvs) ++ Char.ofNat 125 :: rest) =
        some (.obj (acc.reverse ++ (k, v) :: kvs), rest)) := by
  intro fuel
  induction fuel using Nat.strong_induction_on with
  | _ fuel ih =>
    cases fuel with
    | zero =>
      refine ⟨fun j rest hc _ => absurd hc (by have := cost_pos j; omega),
        fun x xs acc rest hc => absurd hc (by have := costItems_pos (x :: xs); omega),
        fun k v kvs acc rest hc => absurd hc (by have := costFields_pos ((k, v) :: kvs); omega)⟩
    | succ fuel =>
      have ihV := (ih fuel (by omega)).1
      have ihA := (ih fuel (by omega)).2.1
      have ihO := (ih fuel (by omega)).2.2
      refine ⟨?_, ?_, ?_⟩
      · -- value
        intro j rest hc hd
        cases j with
        | null =>
          rw [show ser .null = ['n', 'u', 'l', 'l'] from by simp [ser, nullChars]]
          rfl
        | bool b =>
          cases b
          · rw [show ser (.bool false) = ['f', 'a', 'l', 's', 'e'] from by simp [ser, falseChars]]
            rfl
          · rw [show ser (.bool true) = ['t', 'r', 'u', 'e'] from by simp [ser, trueChars]]
            rfl
        | num i =>
          rw [show ser (.num i) = intChars i from by simp [ser]]
          unfold intChars
          by_cases hi : i < 0
          · rw [if_pos hi]
            obtain ⟨c, cs2, hnc, hdg⟩ := natChars_head i.natAbs
            rw [hnc]
            simp only [List.cons_append]
            rw [show parseF (fuel + 1) .val ('-' :: c :: (cs2 ++ rest)) =
                (if isDigitC c then
                  some (.num (-(((parseNatAux 0 (c :: (cs2 ++ rest))).1 : Nat) : Int)),
                    (parseNatAux 0 (c :: (cs2 ++ rest))).2)
                else none) from rfl]
            rw [if_pos hdg]
            rw [show (c :: (cs2 ++ rest)) = (c :: cs2) ++ rest from by simp]
            rw [← hnc, parseNat_natChars _ rest hd]
            rw [show (-(((i.natAbs : Nat) : Int))) = i from by omega]
          · rw [if_neg hi]
            obtain ⟨c, cs2, hnc, hdg⟩ := natChars_head i.toNat
            rw [hnc]
            simp only [List.cons_append]
            rw [parseF_digit fuel c (cs2 ++ rest) hdg]
            rw [show (c :: (cs2 ++ rest)) = (c :: cs2) ++ rest from by simp]
            rw [← hnc, parseNat_natChars _ rest hd]
            show some (Json.num ((i.toNat : Nat) : Int), rest) = _
            rw [Int.toNat_of_nonneg (by omega)]
        | str s =>
          rw [show ser (.str s) = '"' :: (escStr s.data ++ ['"']) from by simp [ser]]
          simp only [List.cons_append, List.append_assoc, List.singleton_append, List.nil_append]
          rw [show parseF (fuel + 1) .val ('"' :: (escStr s.data ++ '"' :: rest)) =
              (match parseStrAux ((escStr s.data ++ '"' :: rest).length + 1) []
                  (escStr s.data ++ '"' :: rest) with
                | some (scs, r2) => some (.str (String.mk scs), r2)
                | none => none) from rfl]
          rw [parseStr_round s.data _ [] rest
            (by have := escStr_len_ge s.data
                simp only [List.length_append, List.length_cons]; omega)]
          simp [mk_data]
        | arr elems =>
          rw [show ser (.arr elems) = '[' :: (serItems elems ++ [']']) from by simp [ser]]
          simp only [List.cons_append, List.append_assoc, List.singleton_append, List.nil_append]
          rw [show parseF (fuel + 1) .val ('[' :: (serItems elems ++ ']' :: rest)) =
              parseF fuel .arrStart (serItems elems ++ ']' :: rest) from rfl]
          cases elems with
          | nil =>
            rw [show serItems ([] : List Json) = [] from by simp [serItems]]
            simp only [List.nil_append]
            have hf : 1 ≤ fuel := by
              have : cost (Json.arr []) = 2 + costItems [] := by simp [cost]
              have h2 : costItems ([] : List Json) = 1 := by simp [costItems]
              omega
            obtain ⟨f, rfl⟩ : ∃ f, fuel = f + 1 := ⟨fuel - 1, by omega⟩
            rfl
          | cons x xs =>
            have hcost : cost (Json.arr (x :: xs)) = 2 + costItems (x :: xs) := by simp [cost]
            have hcx : costItems (x :: xs) = 1 + cost x + costItems xs := by simp [costItems]
            have hf : 1 ≤ fuel := by
              have := cost_pos x
              have := costItems_pos xs
              omega
            obtain ⟨f, rfl⟩ : ∃ f, fuel = f + 1 := ⟨fuel - 1, by omega⟩
            obtain ⟨c, cs2, hsc, hne⟩ := ser_head x
            have hform : serItems (x :: xs) ++ ']' :: rest =
                c :: (cs2 ++ ((if xs.isEmpty then [] else ',' :: serItems xs) ++ ']' :: rest)) := by
              rw [show serItems (x :: xs) =
                  ser x ++ (if xs.isEmpty then [] else ',' :: serItems xs) from by
                simp [serItems]]
              rw [hsc]
              simp [List.cons_append, List.append_assoc]
            rw [hform, parseF_arrStart_cons f c _ hne, ← hform]
            rw [(ih f (by omega)).2.1 x xs [] rest (by omega)]
            simp
        | obj fields =>
          rw [show ser (.obj fields) =
              Char.ofNat 123 :: (serFields fields ++ [Char.ofNat 125]) from by simp [ser]]
          simp only [List.cons_append, List.append_assoc, List.singleton_append, List.nil_append]
          rw [show parseF (fuel + 1) .val
              (Char.ofNat 123 :: (serFields fields ++ Char.ofNat 125 :: rest)) =
              parseF fuel .objStart (serFields fields ++ Char.ofNat 125 :: rest) from rfl]
          cases fields with
          | nil =>
            rw [show serFields ([] : List (String × Json)) = [] from by simp [serFields]]
            simp only [List.nil_append]
            have hf : 1 ≤ fuel := by
              have : cost (Json.obj []) = 2 + costFields [] := by simp [cost]
              have h2 : costFields ([] : List (String × Json)) = 1 := by simp [costFields]
              omega
            obtain ⟨f, rfl⟩ : ∃ f, fuel = f + 1 := ⟨fuel - 1, by omega⟩
            rfl
          | cons kv kvs =>
            rcases kv with ⟨k, v⟩
            have hcost : cost (Json.obj ((k, v) :: kvs)) = 2 + costFields ((k, v) :: kvs) := by
              simp [cost]
            have hcx : costFields ((k, v) :: kvs) = 1 + cost v + costFields kvs := by
              simp [costFields]
            have hf : 1 ≤ fuel := by
              have := cost_pos v
              have := costFields_pos kvs
              omega
            obtain ⟨f, rfl⟩ : ∃ f, fuel = f + 1 := ⟨fuel - 1, by omega⟩
            have hform : serFields ((k, v) :: kvs) ++ Char.ofNat 125 :: rest =
                '"' :: ((escStr k.data ++ ('"' :: ':' :: ser v)) ++
                  ((if kvs.isEmpty then [] else ',' :: serFields kvs) ++
                    Char.ofNat 125 :: rest)) := by
              rw [show serFields ((k, v) :: kvs) =
                  ('"' :: (escStr k.data ++ ('"' :: ':' :: ser v))) ++
                    (if kvs.isEmpty then [] else ',' :: serFields kvs) from by
                simp [serFields]]
              simp [List.cons_append, List.append_assoc]
            rw [hform, parseF_objStart_quote, ← hform]
            rw [(ih f (by omega)).2.2 k v kvs [] rest (by omega)]
            simp
      · -- array items
        intro x xs acc rest hc
        have hcx : costItems (x :: xs) = 1 + cost x + costItems xs := by simp [costItems]
        rw [parseF_arrItems_eq]
        cases xs with
        | nil =>
          have hone : serItems [x] ++ ']' :: rest = ser x ++ ']' :: rest := by
            simp [serItems]
          rw [hone]
          have h2 : costItems ([] : List Json) = 1 := by simp [costItems]
          rw [ihV x (']' :: rest) (by omega) rfl]
          show some (Json.arr (x :: acc).reverse, rest) = _
          simp
        | cons y ys =>
          have hser : serItems (x :: y :: ys) ++ ']' :: rest =
              ser x ++ (',' :: (serItems (y :: ys) ++ ']' :: rest)) := by
            rw [show serItems (x :: y :: ys) = ser x ++ (',' :: serItems (y :: ys)) from by
              simp [serItems]]
            simp [List.append_assoc]
          rw [hser]
          have hcy := costItems_pos (y :: ys)
          rw [ihV x (',' :: (serItems (y :: ys) ++ ']' :: rest)) (by omega) rfl]
          show parseF fuel (.arrItems (x :: acc)) (serItems (y :: ys) ++ ']' :: rest) = _
          rw [ihA y ys (x :: acc) rest (by omega)]
          simp
      · -- object items
        intro k v kvs acc rest hc
        have hcx : costFields ((k, v) :: kvs) = 1 + cost v + costFields kvs := by
          simp [costFields]
        have hser : serFields ((k, v) :: kvs) ++ Char.ofNat 125 :: rest =
            '"' :: (escStr k.data ++ '"' :: (':' :: (ser v ++
              ((if kvs.isEmpty then [] else ',' :: serFields kvs) ++
                Char.ofNat 125 :: rest)))) := by
          rw [show serFields ((k, v) :: kvs) =
              ('"' :: (escStr k.data ++ ('"' :: ':' :: ser v))) ++
                (if kvs.isEmpty then [] else ',' :: serFields kvs) from by
            simp [serFields]]
          simp [List.cons_append, List.append_assoc]
        rw [hser, parseF_objItems_cons]
        rw [parseStr_round k.data _ [] _
          (by have := escStr_len_ge k.data
              simp only [List.length_append, List.length_cons]; omega)]
        simp only [List.reverse_nil, List.nil_append]
        cases kvs with
        | nil =>
          have hsep : (if ([] : List (String × Json)).isEmpty then []
              else ',' :: serFields []) ++ Char.ofNat 125 :: rest = Char.ofNat 125 :: rest := by
            simp
          rw [hsep]
          have h2 : costFields ([] : List (String × Json)) = 1 := by simp [costFields]
          rw [ihV v (Char.ofNat 125 :: rest) (by omega) rfl]
          show some (Json.obj ((String.mk k.data, v) :: acc).reverse, rest) = _
          simp [mk_data]
        | cons kv2 kvs2 =>
          rcases kv2 with ⟨k2, v2⟩
          have hsep : (if ((k2, v2) :: kvs2).isEmpty then []
              else ',' :: serFields ((k2, v2) :: kvs2)) ++ Char.ofNat 125 :: rest =
              ',' :: (serFields ((k2, v2) :: kvs2) ++ Char.ofNat 125 :: rest) := by
            simp
          rw [hsep]
          have hcy := costFields_pos ((k2, v2) :: kvs2)
          rw [ihV v (',' :: (serFields ((k2, v2) :: kvs2) ++ Char.ofNat 125 :: rest))
            (by omega) rfl]
          show parseF fuel (.objItems ((String.mk k.data, v) :: acc))
              (serFields ((k2, v2) :: kvs2) ++ Char.ofNat 125 :: rest) = _
          rw [ihO k2 v2 kvs2 ((String.mk k.data, v) :: acc) rest (by omega)]
          simp [mk_data]

theorem costItems_le_of (xs : List Json) (h : ∀ x ∈ xs, cost x ≤ 2 * (ser x).length) :
    costItems xs ≤ 2 * (serItems xs).length + 2 := by
  induction xs with
  | nil => simp [costItems, serItems]
  | cons x xs ih =>
    have hx := h x (List.mem_cons_self x xs)
    have hxs := ih (fun y hy => h y (List.mem_cons_of_mem x hy))
    rw [show costItems (x :: xs) = 1 + cost x + costItems xs from by simp [costItems]]
    rw [show serItems (x :: xs) = ser x ++ (if xs.isEmpty then [] else ',' :: serItems xs)
      from by simp [serItems]]
    cases xs with
    | nil =>
      rw [show (if ([] : List Json).isEmpty then ([] : List Char) else ',' :: serItems []) =
        [] from rfl]
      have : costItems ([] : List Json) = 1 := by simp [costItems]
      simp only [List.append_nil]
      omega
    | cons y ys =>
      rw [show (if ((y :: ys) : List Json).isEmpty then ([] : List Char)
        else ',' :: serItems (y :: ys)) = ',' :: serItems (y :: ys) from rfl]
      simp only [List.length_append, List.length_cons]
      omega

theorem costFields_le_of (kvs : List (String × Json))
    (h : ∀ p ∈ kvs, cost p.2 ≤ 2 * (ser p.2).length) :
    costFields kvs ≤ 2 * (serFields kvs).length + 2 := by
  induction kvs with
  | nil => simp [costFields, serFields]
  | cons kv kvs ih =>
    rcases kv with ⟨k, v⟩
    have hx : cost v ≤ 2 * (ser v).length := h (k, v) (List.mem_cons_self (k, v) kvs)
    have hxs := ih (fun y hy => h y (List.mem_cons_of_mem (k, v) hy))
    rw [show costFields ((k, v) :: kvs) = 1 + cost v + costFields kvs from by simp [costFields]]
    rw [show serFields ((k, v) :: kvs) =
        ('"' :: (escStr k.data ++ ('"' :: ':' :: ser v))) ++
          (if kvs.isEmpty then [] else ',' :: serFields kvs) from by simp [serFields]]
    cases kvs with
    | nil =>
      rw [show (if ([] : List (String × Json)).isEmpty then ([] : List Char)
        else ',' :: serFields []) = [] from rfl]
      have : costFields ([] : List (String × Json)) = 1 := by simp [costFields]
      simp only [List.append_nil, List.length_cons, List.length_append]
      omega
    | cons p ps =>
      rw [show (if ((p :: ps) : List (String × Json)).isEmpty then ([] : List Char)
        else ',' :: serFields (p :: ps)) = ',' :: serFields (p :: ps) from rfl]
      simp only [List.length_append, List.length_cons]
      omega

theorem cost_ser_le_aux : ∀ n, ∀ j : Json, sizeOf j ≤ n → cost j ≤ 2 * (ser j).length := by
  intro n
  induction n using Nat.strong_induction_on with
  | _ n ih =>
    intro j hj
    cases j with
    | null =>
      rw [show ser .null = ['n', 'u', 'l', 'l'] from by simp [ser, nullChars]]
      simp [cost]
    | bool b =>
      cases b
      · rw [show ser (.bool false) = ['f', 'a', 'l', 's', 'e'] from by simp [ser, falseChars]]
        simp [cost]
      · rw [show ser (.bool true) = ['t', 'r', 'u', 'e'] from by simp [ser, trueChars]]
        simp [cost]
    | num i =>
      rw [show ser (.num i) = intChars i from by simp [ser]]
      have : intChars i ≠ [] := by
        unfold intChars
        split
        · simp
        · exact natChars_ne_nil _
      have : 1 ≤ (intChars i).length := by
        cases h : intChars i with
        | nil => exact absurd h this
        | cons a b => simp
      rw [show cost (.num i) = 1 from by simp [cost]]
      omega
    | str s =>
      rw [show ser (.str s) = '"' :: (escStr s.data ++ ['"']) from by simp [ser]]
      rw [show cost (.str s) = 1 from by simp [cost]]
      simp
      omega
    | arr elems =>
      have helem : ∀ x ∈ elems, cost x ≤ 2 * (ser x).length := by
        intro x hx
        have h1 : sizeOf x < sizeOf elems := List.sizeOf_lt_of_mem hx
        have h2 : sizeOf elems < sizeOf (Json.arr elems) := by
          simp [Json.arr.sizeOf_spec]
        exact ih (sizeOf x) (by omega) x le_rfl
      have := costItems_le_of elems helem
      rw [show ser (.arr elems) = '[' :: (serItems elems ++ [']']) from by simp [ser]]
      rw [show cost (.arr elems) = 2 + costItems elems from by simp [cost]]
      simp only [List.length_cons, List.length_append, List.length_singleton]
      omega
    | obj fields =>
      have helem : ∀ p ∈ fields, cost p.2 ≤ 2 * (ser p.2).length := by
        intro p hp
        have h1 : sizeOf p < sizeOf fields := List.sizeOf_lt_of_mem hp
        have h2 : sizeOf fields < sizeOf (Json.obj fields) := by
          simp [Json.obj.sizeOf_spec]
        have h3 : sizeOf p.2 < sizeOf p := by
          rcases p with ⟨a, b⟩
          simp [Prod.mk.sizeOf_spec]
        exact ih (sizeOf p.2) (by omega) p.2 le_rfl
      have := costFields_le_of fields helem
      rw [show ser (.obj fields) = Char.ofNat 123 :: (serFields fields ++ [Char.ofNat 125])
        from by simp [ser]]
      rw [show cost (.obj fields) = 2 + costFields fields from by simp [cost]]
      simp only [List.length_cons, List.length_append, List.length_singleton]
      omega

theorem cost_ser_le (j : Json) : cost j ≤ 2 * (ser j).length :=
  cost_ser_le_aux (sizeOf j) j le_rfl

theorem json_round (j : Json) : parseJson (ser j) = some j := by
  have h := (parse_round (2 * (ser j).length + 2)).1 j []
    (le_trans (cost_ser_le j) (by omega)) rfl
  rw [List.append_nil] at h
  simp [parseJson, h]



-- Model of the fetch, transform and persist pipeline of src/main.py.

inductive StorageErr where
  | botoCoreError : StorageErr
  | clientError : StorageErr

inductive PyErr where
  | httpError : PyErr
  | transportError : PyErr
  | valueError : PyErr
  | attributeError : PyErr
  | indexError : PyErr
  | keyError : PyErr
  | typeError : PyErr
  | storageError (e : StorageErr) : PyErr

/-- Lookup of a key in the field list of a JSON object, as Python dict indexing. -/
def lookupField : List (String × Json) → String → Option Json
  | [], _ => none
  | (k2, v) :: rest, k => if k2 = k then some v else lookupField rest k

/-- Python d.get(k): returns the stored value, or none when the key is absent, and
raises AttributeError when the receiver is not a dict. -/
def pyGet (j : Json) (k : String) : Except PyErr (Option Json) :=
  match j with
  | .obj fields => .ok (lookupField fields k)
  | _ => .error .attributeError

/-- Python d.get(k, default): the stored value when the key is present, even when that
value is None, the default otherwise; AttributeError on a non-dict receiver. -/
def pyGetD (j : Json) (k : String) (d : Json) : Except PyErr Json :=
  match j with
  | .obj fields => .ok ((lookupField fields k).getD d)
  | _ => .error .attributeError

/-- Python subscript x[0]: head of a list, first character of a string, KeyError on a
dict without the key 0, IndexError on empty sequences, TypeError otherwise. -/
def pyIndexZero (j : Json) : Except PyErr Json :=
  match j with
  | .arr (x :: _) => .ok x
  | .arr [] => .error .indexError
  | .str s =>
    match s.data with
    | c :: _ => .ok (.str (String.mk [c]))
    | [] => .error .indexError
  | .obj _ => .error .keyError
  | _ => .error .typeError

/-- Broken-down UTC instant as carried by datetime.now(timezone.utc). -/
structure DateTime where
  year : Nat
  month : Nat
  day : Nat
  hour : Nat
  minute : Nat
  second : Nat
  microsecond : Nat

def padLeft (w n : Nat) : String :=
  String.mk (List.replicate (w - (natChars n).length) '0' ++ natChars n)

/-- Python datetime.isoformat() for a timezone-aware UTC value: the microseconds part
is omitted when zero and the offset is rendered +00:00. -/
def isoformat (t : DateTime) : String :=
  padLeft 4 t.year ++ "-" ++ padLeft 2 t.month ++ "-" ++ padLeft 2 t.day ++ "T" ++
    padLeft 2 t.hour ++ ":" ++ padLeft 2 t.minute ++ ":" ++ padLeft 2 t.second ++
    (if t.microsecond = 0 then "" else "." ++ padLeft 6 t.microsecond) ++ "+00:00"

/-- The strftime format %Y%m%dT%H%M%SZ used by both sinks: second granularity, no
microseconds. -/
def strftimeCompactUTC (t : DateTime) : String :=
  padLeft 4 t.year ++ padLeft 2 t.month ++ padLeft 2 t.day ++ "T" ++
    padLeft 2 t.hour ++ padLeft 2 t.minute ++ padLeft 2 t.second ++ "Z"

/-- Model of extract_relevant_data (src/main.py, lines 57-72). Field lookups follow the
Python evaluation order: name, then main with a dict default, then the first element of
weather with a singleton default, then the nested lookups. The current UTC time is an
explicit argument. -/
def extract_relevant_data (raw_data : Json) (now : DateTime) : Except PyErr Json := do
  let city_name := (← pyGet raw_data "name").getD .null
  let mainObj := (← pyGet raw_data "main").getD (.obj [])
  let weather ← pyIndexZero ((← pyGet raw_data "weather").getD (.arr [.obj []]))
  let temp := (← pyGet mainObj "temp").getD .null
  let humidity := (← pyGet mainObj "humidity").getD .null
  let condition := (← pyGet weather "description").getD .null
  pure (.obj [("city", city_name), ("temperature_f", temp), ("humidity", humidity),
    ("condition", condition), ("timestamp", .str (isoformat now)), ("raw", raw_data)])

/-- Python city.replace(" ", "_") for the single-character pattern. -/
def underscored (s : String) : String :=
  String.mk (s.data.map (fun c => if c = ' ' then '_' else c))

def pyReplaceSpace (j : Json) : Except PyErr String :=
  match j with
  | .str s => .ok (underscored s)
  | _ => .error .attributeError

/-- Shared first step of both sinks: data.get("city", "unknown").replace(" ", "_").
Raises AttributeError when the looked-up value is not a string, in particular on null. -/
def sinkCityName (data : Json) : Except PyErr String := do
  pyReplaceSpace (← pyGetD data "city" (.str "unknown"))

/-- Process configuration resolved from the environment: OPENWEATHER_API_KEY,
S3_BUCKET_NAME (os.getenv, so none models an unset variable) and CITIES (defaulted to
the empty string). -/
structure Config where
  apiKey : Option String
  bucket : Option String
  citiesEnv : String

/-- Oracles for the external world: the decoded JSON outcome of the GET for each city,
the object-store outcome per key, the filesystem outcome per path (some message models a
raised IOError), and the current UTC clock. -/
structure Behavior where
  httpJson : String → Except PyErr Json
  s3PutOutcome : String → Option StorageErr
  fsWriteOutcome : String → Option String
  now : DateTime

/-- Observable events of one run, in order: network request, object-store put with its
serialized body, local file write, and the logged warning and fatal lines. -/
inductive Event where
  | httpGet (url : String) (params : List (String × String)) (timeoutSeconds : Nat) : Event
  | s3Put (bucket : String) (key : String) (body : List Char) (contentType : String) : Event
  | localWrite (path : String) : Event
  | warnLocalSaveFailed (path : String) : Event
  | errorUploadFailed (key : String) : Event
  | warnSkip (city : String) : Event
  | fatal (msg : String) : Event

def BASE_URL : String := "https://api.openweathermap.org/data/2.5/weather"

/-- Model of fetch_weather_for_city (src/main.py, lines 33-54): a single GET against
BASE_URL with query parameters q, appid, units=imperial and a 10 second timeout; HTTP
and transport errors re-raise after logging, so the oracle outcome is returned as is. -/
def fetch_weather_for_city (apiKey : String) (B : Behavior) (city : String) :
    List Event × Except PyErr Json :=
  ([.httpGet BASE_URL [("q", city), ("appid", apiKey), ("units", "imperial")] 10],
    B.httpJson city)

/-- Storage key built by upload_to_s3 (src/main.py, lines 80-82). -/
def s3Key (cityName : String) (t : DateTime) : String :=
  "weather-data/" ++ cityName ++ "/" ++ cityName ++ "_" ++ strftimeCompactUTC t ++ ".json"

/-- Model of upload_to_s3 (src/main.py, lines 76-94): sanitize the city, build the key,
put the JSON-serialized record; BotoCoreError and ClientError are logged and re-raised,
so a storage failure is returned to the caller. -/
def upload_to_s3 (bucket : String) (B : Behavior) (data : Json) :
    List Event × Except PyErr Unit :=
  match sinkCityName data with
  | .error e => ([], .error e)
  | .ok city =>
    match B.s3PutOutcome (s3Key city B.now) with
    | none => ([.s3Put bucket (s3Key city B.now) (ser data) "application/json"], .ok ())
    | some e => ([.errorUploadFailed (s3Key city B.now)], .error (.storageError e))

/-- Local path os.path.join("docs", filename) built by save_to_local_file. -/
def localPath (cityName : String) (t : DateTime) : String :=
  "docs/" ++ cityName ++ "_" ++ strftimeCompactUTC t ++ ".json"

/-- Model of save_to_local_file (src/main.py, lines 97-111): the city sanitization and
path construction happen before the try block, the write happens inside it, and IOError
is caught, logged and absorbed, so the function returns normally on filesystem errors. -/
def save_to_local_file (B : Behavior) (data : Json) : List Event × Except PyErr Unit :=
  match sinkCityName data with
  | .error e => ([], .error e)
  | .ok city =>
    match B.fsWriteOutcome (localPath city B.now) with
    | none => ([.localWrite (localPath city B.now)], .ok ())
    | some _ => ([.warnLocalSaveFailed (localPath city B.now)], .ok ())

/-- One iteration of the per-city loop of main (src/main.py, lines 131-146): fetch,
extract, upload, save, with any error of the first three steps (and any error escaping
save) caught at the per-city boundary and turned into a warning. -/
def processCity (apiKey bucket : String) (B : Behavior) (city : String) : List Event :=
  (fetch_weather_for_city apiKey B city).1 ++
    match (fetch_weather_for_city apiKey B city).2 with
    | .error _ => [.warnSkip city]
    | .ok raw_data =>
      match extract_relevant_data raw_data B.now with
      | .error _ => [.warnSkip city]
      | .ok cleaned =>
        (upload_to_s3 bucket B cleaned).1 ++
          match (upload_to_s3 bucket B cleaned).2 with
          | .error _ => [.warnSkip city]
          | .ok _ =>
            (save_to_local_file B cleaned).1 ++
              match (save_to_local_file B cleaned).2 with
              | .error _ => [.warnSkip city]
              | .ok _ => []

def isPySpace (c : Char) : Bool :=
  c == ' ' || c == '\t' || c == '\n' || c == '\r' || c == Char.ofNat 11 || c == Char.ofNat 12

def pyStrip (cs : List Char) : List Char :=
  ((cs.dropWhile isPySpace).reverse.dropWhile isPySpace).reverse

def splitCommaAux (acc : List Char) : List Char → List (List Char)
  | [] => [acc.reverse]
  | c :: rest =>
    if c = ',' then acc.reverse :: splitCommaAux [] rest
    else splitCommaAux (c :: acc) rest

/-- Model of get_cities_from_env (src/main.py, lines 22-23): split CITIES on commas,
strip whitespace, drop entries that are empty after stripping. -/
def get_cities_from_env (citiesEnv : String) : List String :=
  ((splitCommaAux [] citiesEnv.data).map (fun cs => String.mk (pyStrip cs))).filter
    (fun s => s != "")

/-- Python truthiness of an optional string: None and the empty string are falsy. -/
def falsyStr : Option String → Bool
  | none => true
  | some s => s == ""

def runCities (apiKey bucket : String) (B : Behavior) : List String → List Event
  | [] => []
  | city :: rest => processCity apiKey bucket B city ++ runCities apiKey bucket B rest

/-- Model of main (src/main.py, lines 115-146): three precondition checks, each
aborting with a fatal message, then the sequential per-city loop. -/
def main (cfg : Config) (B : Behavior) : List Event :=
  if falsyStr cfg.apiKey then [.fatal "OPENWEATHER_API_KEY is not set in .env"]
  else if falsyStr cfg.bucket then [.fatal "S3_BUCKET_NAME is not set in .env"]
  else
    let cities := get_cities_from_env cfg.citiesEnv
    if cities.isEmpty then [.fatal "No cities configured. Please set CITIES in .env"]
    else runCities (cfg.apiKey.getD "") (cfg.bucket.getD "") B cities

def isEffect : Event → Bool
  | .httpGet _ _ _ => true
  | .s3Put _ _ _ _ => true
  | .localWrite _ => true
  | _ => false

/-- A trace with no network request, no object-store put and no local file write. -/
def noEffects (trace : List Event) : Bool := trace.all (fun e => !isEffect e)

/-- The GET requests of a trace: URL, query parameters and timeout, in order. -/
def httpRequests (trace : List Event) : List (String × List (String × String) × Nat) :=
  trace.filterMap (fun e =>
    match e with
    | .httpGet u p t => some (u, p, t)
    | _ => none)

/-- The cities requested over HTTP during a trace, read from the q query parameter. -/
def requestedCities (trace : List Event) : List String :=
  (httpRequests trace).filterMap (fun r => r.2.1.lookup "q")

def hasLocalWrite (trace : List Event) : Bool :=
  trace.any (fun e =>
    match e with
    | .localWrite _ => true
    | _ => false)

-- Trace lemmas for the orchestrator.

theorem httpRequests_append (a b : List Event) :
    httpRequests (a ++ b) = httpRequests a ++ httpRequests b := by
  simp [httpRequests, List.filterMap_append]

theorem httpRequests_nil : httpRequests [] = [] := rfl

theorem httpRequests_httpGet (u : String) (p : List (String × String)) (t : Nat)
    (tr : List Event) : httpRequests (.httpGet u p t :: tr) = (u, p, t) :: httpRequests tr :=
  rfl

theorem httpRequests_warnSkip (c : String) (tr : List Event) :
    httpRequests (.warnSkip c :: tr) = httpRequests tr := rfl

theorem httpRequests_s3Put (b k : String) (body : List Char) (ct : String)
    (tr : List Event) : httpRequests (.s3Put b k body ct :: tr) = httpRequests tr := rfl

theorem httpRequests_errorUpload (k : String) (tr : List Event) :
    httpRequests (.errorUploadFailed k :: tr) = httpRequests tr := rfl

theorem httpRequests_localWrite (p : String) (tr : List Event) :
    httpRequests (.localWrite p :: tr) = httpRequests tr := rfl

theorem httpRequests_warnLocal (p : String) (tr : List Event) :
    httpRequests (.warnLocalSaveFailed p :: tr) = httpRequests tr := rfl

theorem upload_no_http (bucket : String) (B : Behavior) (d : Json) :
    httpRequests (upload_to_s3 bucket B d).1 = [] := by
  cases h : sinkCityName d with
  | error e => simp [upload_to_s3, h, httpRequests_nil]
  | ok c =>
    cases h2 : B.s3PutOutcome (s3Key c B.now) with
    | none => simp [upload_to_s3, h, h2, httpRequests_s3Put, httpRequests_nil]
    | some e => simp [upload_to_s3, h, h2, httpRequests_errorUpload, httpRequests_nil]

theorem save_no_http (B : Behavior) (d : Json) :
    httpRequests (save_to_local_file B d).1 = [] := by
  cases h : sinkCityName d with
  | error e => simp [save_to_local_file, h, httpRequests_nil]
  | ok c =>
    cases h2 : B.fsWriteOutcome (localPath c B.now) with
    | none => simp [save_to_local_file, h, h2, httpRequests_localWrite, httpRequests_nil]
    | some e => simp [save_to_local_file, h, h2, httpRequests_warnLocal, httpRequests_nil]

theorem processCity_http (k b : String) (B : Behavior) (c : String) :
    httpRequests (processCity k b B c) =
      [(BASE_URL, [("q", c), ("appid", k), ("units", "imperial")], 10)] := by
  have hup := upload_no_http b B
  have hsv := save_no_http B
  cases hf : B.httpJson c with
  | error e =>
    simp [processCity, fetch_weather_for_city, hf, httpRequests_append,
      httpRequests_httpGet, httpRequests_warnSkip, httpRequests_nil]
  | ok raw =>
    cases hx : extract_relevant_data raw B.now with
    | error e2 =>
      simp [processCity, fetch_weather_for_city, hf, hx, httpRequests_append,
        httpRequests_httpGet, httpRequests_warnSkip, httpRequests_nil]
    | ok cleaned =>
      cases hu : (upload_to_s3 b B cleaned).2 with
      | error e3 =>
        simp [processCity, fetch_weather_for_city, hf, hx, hu, httpRequests_append,
          hup, hsv, httpRequests_httpGet, httpRequests_warnSkip, httpRequests_nil]
      | ok u =>
        cases hs : (save_to_local_file B cleaned).2 with
        | error e4 =>
          simp [processCity, fetch_weather_for_city, hf, hx, hu, hs, httpRequests_append,
            hup, hsv, httpRequests_httpGet, httpRequests_warnSkip, httpRequests_nil]
        | ok v =>
          simp [processCity, fetch_weather_for_city, hf, hx, hu, hs, httpRequests_append,
            hup, hsv, httpRequests_httpGet, httpRequests_warnSkip, httpRequests_nil]

theorem runCities_http (k b : String) (B : Behavior) (cities : List String) :
    httpRequests (runCities k b B cities) =
      cities.map (fun c => (BASE_URL, [("q", c), ("appid", k), ("units", "imperial")], 10)) := by
  induction cities with
  | nil => rfl
  | cons c cs ih =>
    rw [show runCities k b B (c :: cs) = processCity k b B c ++ runCities k b B cs from rfl]
    rw [httpRequests_append, processCity_http, ih]
    rfl

theorem requestedCities_runCities (k b : String) (B : Behavior) (cities : List String) :
    requestedCities (runCities k b B cities) = cities := by
  rw [requestedCities, runCities_http]
  rw [List.filterMap_map]
  have hpt : ∀ c : String,
      ((fun r : String × List (String × String) × Nat => r.2.1.lookup "q") ∘
        (fun c => (BASE_URL, [("q", c), ("appid", k), ("units", "imperial")], 10))) c =
      some c := fun c => rfl
  rw [List.filterMap_congr (fun c _ => hpt c)]
  exact List.filterMap_some cities

theorem main_eq_runCities (cfg : Config) (B : Behavior)
    (hk : falsyStr cfg.apiKey = false) (hb : falsyStr cfg.bucket = false)
    (hne : get_cities_from_env cfg.citiesEnv ≠ []) :
    main cfg B = runCities (cfg.apiKey.getD "") (cfg.bucket.getD "") B
      (get_cities_from_env cfg.citiesEnv) := by
  have hemp : (get_cities_from_env cfg.citiesEnv).isEmpty = false := by
    cases h : get_cities_from_env cfg.citiesEnv with
    | nil => exact absurd h hne
    | cons a l => rfl
  simp [main, hk, hb, hemp]

theorem extract_ok_shape (raw : Json) (now : DateTime) (rec : Json)
    (h : extract_relevant_data raw now = .ok rec) :
    ∃ fs ms ws,
      raw = .obj fs ∧
      rec = .obj [("city", (lookupField fs "name").getD .null),
        ("temperature_f", (lookupField ms "temp").getD .null),
        ("humidity", (lookupField ms "humidity").getD .null),
        ("condition", (lookupField ws "description").getD .null),
        ("timestamp", .str (isoformat now)),
        ("raw", raw)] := by
  cases raw with
  | obj fs =>
    refine ⟨fs, ?_⟩
    simp only [extract_relevant_data, pyGet, Bind.bind, Except.bind] at h
    cases hw : pyIndexZero ((lookupField fs "weather").getD (.arr [.obj []])) with
    | error e => rw [hw] at h; exact absurd h (by simp)
    | ok w =>
      rw [hw] at h
      cases hm : (lookupField fs "main").getD (.obj []) with
      | obj ms =>
        rw [hm] at h
        cases w with
        | obj ws =>
          refine ⟨ms, ws, rfl, ?_⟩
          simp only [pyGet, Except.bind, pure, Except.pure, Except.ok.injEq] at h
          exact h.symm
        | null => exact absurd h (by simp [pyGet])
        | bool bb => exact absurd h (by simp [pyGet])
        | num nn => exact absurd h (by simp [pyGet])
        | str ss => exact absurd h (by simp [pyGet])
        | arr aa => exact absurd h (by simp [pyGet])
      | null => rw [hm] at h; exact absurd h (by simp [pyGet])
      | bool bb => rw [hm] at h; exact absurd h (by simp [pyGet])
      | num nn => rw [hm] at h; exact absurd h (by simp [pyGet])
      | str ss => rw [hm] at h; exact absurd h (by simp [pyGet])
      | arr aa => rw [hm] at h; exact absurd h (by simp [pyGet])
  | null => exact absurd h (by simp [extract_relevant_data, pyGet, Bind.bind, Except.bind])
  | bool b => exact absurd h (by simp [extract_relevant_data, pyGet, Bind.bind, Except.bind])
  | num n => exact absurd h (by simp [extract_relevant_data, pyGet, Bind.bind, Except.bind])
  | str s => exact absurd h (by simp [extract_relevant_data, pyGet, Bind.bind, Except.bind])
  | arr xs => exact absurd h (by simp [extract_relevant_data, pyGet, Bind.bind, Except.bind])

-- Concrete fixtures used by the witnesses.

def t0 : DateTime := ⟨2026, 10, 12, 7, 30, 5, 123456⟩

def tA : DateTime := ⟨2026, 10, 12, 7, 30, 5, 111111⟩

def tB : DateTime := ⟨2026, 10, 12, 7, 30, 5, 999999⟩

def rawMumbai : Json := .obj
  [("name", .str "Mumbai"),
   ("main", .obj [("temp", .num 86), ("humidity", .num 70)]),
   ("weather", .arr [.obj [("description", .str "haze")]])]

def recMumbai : Json := .obj
  [("city", .str "Mumbai"), ("temperature_f", .num 86), ("humidity", .num 70),
   ("condition", .str "haze"), ("timestamp", .str (isoformat t0)), ("raw", rawMumbai)]

def recNull : Json := .obj
  [("city", .null), ("temperature_f", .null), ("humidity", .null),
   ("condition", .null), ("timestamp", .str (isoformat t0)), ("raw", .obj [])]

def B0 : Behavior := ⟨fun _ => .error .httpError, fun _ => some .clientError,
  fun _ => some "disk full", t0⟩

def BOk : Behavior := ⟨fun _ => .ok rawMumbai, fun _ => none, fun _ => none, t0⟩

def BS3Fail : Behavior := ⟨fun _ => .ok rawMumbai, fun _ => some .clientError,
  fun _ => none, t0⟩

def cfg0 : Config := ⟨some "testkey", some "test-bucket", "Mumbai, London"⟩

def cfgNoKey : Config := ⟨none, some "test-bucket", "Mumbai"⟩

-- Claims.

/-- Claim C1, counterexample: extract_relevant_data is not total on every JSON object.
On an object whose weather field is an empty list, the code indexes the empty list and
raises IndexError; on a weather list whose first element is not an object, the
subsequent attribute lookup raises AttributeError. -/
theorem extract_total_counterexample :
    extract_relevant_data (.obj [("weather", .arr [])]) t0 = .error .indexError ∧
    extract_relevant_data (.obj [("weather", .arr [.num 1])]) t0 = .error .attributeError :=
  ⟨rfl, rfl⟩

/-- Claim C1, amended: for every JSON object whose main field, when present, is an
object, and whose weather field, when present, is a non-empty list with an object first
element, extract_relevant_data returns a record with null defaults for each missing
field and never raises. -/
theorem extract_total_amended (fs : List (String × Json)) (now : DateTime)
    (hmain : ∀ v, lookupField fs "main" = some v → ∃ ms, v = .obj ms)
    (hweather : ∀ w, lookupField fs "weather" = some w →
      ∃ wf wrest, w = .arr (.obj wf :: wrest)) :
    ∃ ms ws, extract_relevant_data (.obj fs) now = .ok (.obj
      [("city", (lookupField fs "name").getD .null),
       ("temperature_f", (lookupField ms "temp").getD .null),
       ("humidity", (lookupField ms "humidity").getD .null),
       ("condition", (lookupField ws "description").getD .null),
       ("timestamp", .str (isoformat now)),
       ("raw", .obj fs)]) := by
  have hm2 : ∃ ms, (lookupField fs "main").getD (.obj []) = .obj ms := by
    cases hm : lookupField fs "main" with
    | none => exact ⟨[], rfl⟩
    | some v =>
      obtain ⟨ms, rfl⟩ := hmain v hm
      exact ⟨ms, rfl⟩
  have hw2 : ∃ ws, pyIndexZero ((lookupField fs "weather").getD (.arr [.obj []])) =
      .ok (.obj ws) := by
    cases hw : lookupField fs "weather" with
    | none => exact ⟨[], rfl⟩
    | some w =>
      obtain ⟨wf, wrest, rfl⟩ := hweather w hw
      exact ⟨wf, rfl⟩
  obtain ⟨ms, hms⟩ := hm2
  obtain ⟨ws, hws⟩ := hw2
  refine ⟨ms, ws, ?_⟩
  simp only [extract_relevant_data, pyGet, Bind.bind, Except.bind, hws, hms, pure, Except.pure]

/-- Witness for the amended claim C1 at the empty object. -/
theorem extract_total_amended_witness :
    ∃ ms ws, extract_relevant_data (.obj []) t0 = .ok (.obj
      [("city", (lookupField [] "name").getD .null),
       ("temperature_f", (lookupField ms "temp").getD .null),
       ("humidity", (lookupField ms "humidity").getD .null),
       ("condition", (lookupField ws "description").getD .null),
       ("timestamp", .str (isoformat t0)),
       ("raw", .obj [])]) :=
  extract_total_amended [] t0 (fun v hv => by simp [lookupField] at hv)
    (fun w hw => by simp [lookupField] at hw)

/-- Claim C2: when the API key is unset or empty, or the bucket name is unset or empty,
or the parsed city list is empty, main emits a single fatal message and stops, performing
no HTTP request and no object-store or local-file write; when all three preconditions
hold, main begins processing the city list. -/
theorem preconditions_gate (cfg : Config) (B : Behavior) :
    (falsyStr cfg.apiKey = true →
      main cfg B = [.fatal "OPENWEATHER_API_KEY is not set in .env"] ∧
        noEffects (main cfg B) = true) ∧
    (falsyStr cfg.apiKey = false → falsyStr cfg.bucket = true →
      main cfg B = [.fatal "S3_BUCKET_NAME is not set in .env"] ∧
        noEffects (main cfg B) = true) ∧
    (falsyStr cfg.apiKey = false → falsyStr cfg.bucket = false →
      get_cities_from_env cfg.citiesEnv = [] →
      main cfg B = [.fatal "No cities configured. Please set CITIES in .env"] ∧
        noEffects (main cfg B) = true) ∧
    (falsyStr cfg.apiKey = false → falsyStr cfg.bucket = false →
      ∀ c cs, get_cities_from_env cfg.citiesEnv = c :: cs →
        main cfg B = processCity (cfg.apiKey.getD "") (cfg.bucket.getD "") B c ++
          runCities (cfg.apiKey.getD "") (cfg.bucket.getD "") B cs) := by
  refine ⟨?_, ?_, ?_, ?_⟩
  · intro h
    constructor
    · simp [main, h]
    · simp [main, h, noEffects, isEffect]
  · intro h1 h2
    constructor
    · simp [main, h1, h2]
    · simp [main, h1, h2, noEffects, isEffect]
  · intro h1 h2 h3
    constructor
    · simp [main, h1, h2, h3]
    · simp [main, h1, h2, h3, noEffects, isEffect]
  · intro h1 h2 c cs h3
    simp [main, h1, h2, h3, runCities]

/-- Witness for claim C2 at a configuration with no API key. -/
theorem preconditions_gate_witness :
    main cfgNoKey B0 = [.fatal "OPENWEATHER_API_KEY is not set in .env"] ∧
      noEffects (main cfgNoKey B0) = true :=
  (preconditions_gate cfgNoKey B0).1 rfl

/-- Claim C3, per-city isolation: for every configuration passing the preconditions and
every pattern of per-city outcomes of the client, extractor and sinks, main is exactly
the per-city loop over the configured cities, and it requests every configured city in
order, so no failure of one city prevents the following cities from being attempted;
being a total function, the run always completes. -/
theorem per_city_isolation (cfg : Config) (B : Behavior)
    (hk : falsyStr cfg.apiKey = false) (hb : falsyStr cfg.bucket = false)
    (hne : get_cities_from_env cfg.citiesEnv ≠ []) :
    main cfg B = runCities (cfg.apiKey.getD "") (cfg.bucket.getD "") B
      (get_cities_from_env cfg.citiesEnv) ∧
    requestedCities (main cfg B) = get_cities_from_env cfg.citiesEnv := by
  have hmain := main_eq_runCities cfg B hk hb hne
  exact ⟨hmain, by rw [hmain, requestedCities_runCities]⟩

/-- Witness for claim C3 at a two-city configuration. -/
theorem per_city_isolation_witness :
    main cfg0 B0 = runCities "testkey" "test-bucket" B0
      (get_cities_from_env "Mumbai, London") ∧
    requestedCities (main cfg0 B0) = get_cities_from_env "Mumbai, London" :=
  per_city_isolation cfg0 B0 rfl rfl (by decide)

/-- Claim C4: when the object-store upload of a city fails with a storage error, the
error propagates out of upload_to_s3, the local-file sink is not invoked for that city,
the city is skipped with a warning at the per-city boundary, and every other city in the
run is still attempted. -/
theorem storage_failure_skips_local (k b : String) (B : Behavior) (city : String)
    (raw rec : Json) (cname : String) (e : StorageErr) (rest : List String)
    (hf : B.httpJson city = .ok raw)
    (hx : extract_relevant_data raw B.now = .ok rec)
    (hcity : sinkCityName rec = .ok cname)
    (hs : B.s3PutOutcome (s3Key cname B.now) = some e) :
    (upload_to_s3 b B rec).2 = .error (.storageError e) ∧
    processCity k b B city =
      [.httpGet BASE_URL [("q", city), ("appid", k), ("units", "imperial")] 10,
        .errorUploadFailed (s3Key cname B.now), .warnSkip city] ∧
    hasLocalWrite (processCity k b B city) = false ∧
    requestedCities (runCities k b B (city :: rest)) = city :: rest := by
  have hup : upload_to_s3 b B rec =
      ([.errorUploadFailed (s3Key cname B.now)], .error (.storageError e)) := by
    simp only [upload_to_s3, hcity, hs]
  have hpc : processCity k b B city =
      [.httpGet BASE_URL [("q", city), ("appid", k), ("units", "imperial")] 10,
        .errorUploadFailed (s3Key cname B.now), .warnSkip city] := by
    simp [processCity, fetch_weather_for_city, hf, hx, hup]
  refine ⟨by rw [hup], hpc, ?_, requestedCities_runCities k b B (city :: rest)⟩
  rw [hpc]
  rfl

/-- Witness for claim C4 with a failing object store. -/
theorem storage_failure_skips_local_witness :
    (upload_to_s3 "test-bucket" BS3Fail recMumbai).2 =
      .error (.storageError .clientError) ∧
    processCity "testkey" "test-bucket" BS3Fail "Mumbai" =
      [.httpGet BASE_URL [("q", "Mumbai"), ("appid", "testkey"), ("units", "imperial")] 10,
        .errorUploadFailed (s3Key "Mumbai" BS3Fail.now), .warnSkip "Mumbai"] ∧
    hasLocalWrite (processCity "testkey" "test-bucket" BS3Fail "Mumbai") = false ∧
    requestedCities (runCities "testkey" "test-bucket" BS3Fail ["Mumbai", "London"]) =
      ["Mumbai", "London"] :=
  storage_failure_skips_local "testkey" "test-bucket" BS3Fail "Mumbai" rawMumbai recMumbai
    "Mumbai" .clientError ["London"] rfl rfl rfl rfl

/-- Claim C5, counterexample: the single GET request issued for a city carries query
parameters named q, appid and units, not location and key as the claim states; the
parameter list of the issued request contains no location entry. -/
theorem fetch_params_counterexample :
    (fetch_weather_for_city "testkey" B0 "London").1 =
      [.httpGet BASE_URL [("q", "London"), ("appid", "testkey"), ("units", "imperial")] 10] ∧
    [("q", "London"), ("appid", "testkey"), ("units", "imperial")].lookup "location" = none ∧
    [("q", "London"), ("appid", "testkey"), ("units", "imperial")] ≠
      [("location", "London"), ("key", "testkey"), ("units", "imperial")] :=
  ⟨rfl, rfl, by decide⟩

/-- Claim C5, amended: under the preconditions, the run issues exactly one GET request
per configured city against the OpenWeather endpoint, with query parameters q bound to
the city name, appid bound to the configured API key and units bound to imperial, and a
bounded timeout of 10 seconds. -/
theorem fetch_params_amended (cfg : Config) (B : Behavior)
    (hk : falsyStr cfg.apiKey = false) (hb : falsyStr cfg.bucket = false)
    (hne : get_cities_from_env cfg.citiesEnv ≠ []) :
    httpRequests (main cfg B) = (get_cities_from_env cfg.citiesEnv).map
      (fun c => (BASE_URL, [("q", c), ("appid", cfg.apiKey.getD ""), ("units", "imperial")],
        10)) := by
  rw [main_eq_runCities cfg B hk hb hne, runCities_http]

/-- Witness for the amended claim C5 at a two-city configuration. -/
theorem fetch_params_amended_witness :
    httpRequests (main cfg0 BOk) = (get_cities_from_env "Mumbai, London").map
      (fun c => (BASE_URL, [("q", c), ("appid", "testkey"), ("units", "imperial")], 10)) :=
  fetch_params_amended cfg0 BOk rfl rfl (by decide)

/-- Claim C6: the object-store key is a deterministic function of the record city name
and of the current UTC second: it equals weather-data/<city>/<city>_<timestamp>.json
where the city name has every space replaced by an underscore and the timestamp is the
UTC time formatted YYYYMMDDThhmmssZ; building the key for the same city at two instants
of the same second yields the same key, since the format ignores microseconds. -/
theorem s3_key_deterministic (fs : List (String × Json)) (c : String) (t t2 : DateTime)
    (hc : lookupField fs "city" = some (.str c))
    (hsec : t.year = t2.year ∧ t.month = t2.month ∧ t.day = t2.day ∧
      t.hour = t2.hour ∧ t.minute = t2.minute ∧ t.second = t2.second) :
    sinkCityName (.obj fs) = .ok (underscored c) ∧
    s3Key (underscored c) t =
      "weather-data/" ++ underscored c ++ "/" ++ underscored c ++ "_" ++
        strftimeCompactUTC t ++ ".json" ∧
    s3Key (underscored c) t = s3Key (underscored c) t2 := by
  obtain ⟨h1, h2, h3, h4, h5, h6⟩ := hsec
  refine ⟨?_, rfl, ?_⟩
  · simp [sinkCityName, pyGetD, hc, pyReplaceSpace, Bind.bind, Except.bind]
  · simp [s3Key, strftimeCompactUTC, h1, h2, h3, h4, h5, h6]

/-- Witness for claim C6 with a space in the city name and two instants of one second. -/
theorem s3_key_deterministic_witness :
    sinkCityName (.obj [("city", .str "New York")]) = .ok (underscored "New York") ∧
    s3Key (underscored "New York") tA =
      "weather-data/" ++ underscored "New York" ++ "/" ++ underscored "New York" ++ "_" ++
        strftimeCompactUTC tA ++ ".json" ∧
    s3Key (underscored "New York") tA = s3Key (underscored "New York") tB :=
  s3_key_deterministic [("city", .str "New York")] "New York" tA tB rfl
    ⟨rfl, rfl, rfl, rfl, rfl, rfl⟩

/-- Claim C7: when the filesystem write performed by save_to_local_file fails, the
function logs a warning and returns normally, so no error reaches its caller. -/
theorem local_save_absorbs_fs_errors (B : Behavior) (data : Json) (cname msg : String)
    (hcity : sinkCityName data = .ok cname)
    (he : B.fsWriteOutcome (localPath cname B.now) = some msg) :
    save_to_local_file B data =
      ([.warnLocalSaveFailed (localPath cname B.now)], .ok ()) := by
  simp only [save_to_local_file, hcity, he]

/-- Witness for claim C7 with a failing filesystem. -/
theorem local_save_absorbs_fs_errors_witness :
    save_to_local_file B0 recMumbai =
      ([.warnLocalSaveFailed (localPath "Mumbai" B0.now)], .ok ()) :=
  local_save_absorbs_fs_errors B0 recMumbai "Mumbai" "disk full" rfl rfl

/-- Claim C8, round-trip: every record produced by extract_relevant_data, serialized to
JSON text and parsed back, yields exactly the original record, so the city, temperature,
humidity, condition and capture-timestamp values are identical and the raw payload
sub-structure is preserved verbatim, nested values included. Instance of the general
serializer-parser round-trip json_round. -/
theorem record_serialization_roundtrip (raw : Json) (now : DateTime) (rec : Json)
    (_hx : extract_relevant_data raw now = .ok rec) :
    parseJson (ser rec) = some rec := json_round rec

/-- Witness for claim C8 at a concrete extracted record. -/
theorem record_serialization_roundtrip_witness :
    parseJson (ser recMumbai) = some recMumbai :=
  record_serialization_roundtrip rawMumbai t0 recMumbai rfl

/-- Claim C9: every record returned by extract_relevant_data carries a timestamp field
that is set, non-null, and equal to the ISO-8601 rendering of the extraction-time UTC
clock with the UTC designator +00:00 at the end; the value is assigned inside the
extractor and does not depend on the input payload. -/
theorem captured_at_always_utc (raw : Json) (now : DateTime) (rec : Json)
    (hx : extract_relevant_data raw now = .ok rec) :
    (∃ fields, rec = .obj fields ∧
      lookupField fields "timestamp" = some (.str (isoformat now))) ∧
    (∃ p, isoformat now = p ++ "+00:00") := by
  constructor
  · obtain ⟨fs, ms, ws, hraw, hrec⟩ := extract_ok_shape raw now rec hx
    refine ⟨_, hrec, ?_⟩
    rfl
  · exact ⟨padLeft 4 now.year ++ "-" ++ padLeft 2 now.month ++ "-" ++ padLeft 2 now.day ++
      "T" ++ padLeft 2 now.hour ++ ":" ++ padLeft 2 now.minute ++ ":" ++
      padLeft 2 now.second ++
      (if now.microsecond = 0 then "" else "." ++ padLeft 6 now.microsecond), rfl⟩

/-- Witness for claim C9 at a concrete extracted record. -/
theorem captured_at_always_utc_witness :
    ((∃ fields, recMumbai = .obj fields ∧
      lookupField fields "timestamp" = some (.str (isoformat t0))) ∧
    (∃ p, isoformat t0 = p ++ "+00:00")) :=
  captured_at_always_utc rawMumbai t0 recMumbai rfl

/-- Claim C10: a raw response that omits the location name yields a record whose city
key is present with value null, so the unknown fallback of the dictionary lookup in both
sinks is never taken; both upload_to_s3 and save_to_local_file then raise AttributeError
when calling replace on the null city name, their event traces are empty, and no record
is ever stored under an unknown key. -/
theorem null_city_never_stored_unknown (fs : List (String × Json)) (now : DateTime)
    (rec : Json) (b : String) (B : Behavior)
    (hname : lookupField fs "name" = none)
    (hx : extract_relevant_data (.obj fs) now = .ok rec) :
    (∃ rfields, rec = .obj rfields ∧ lookupField rfields "city" = some .null) ∧
    pyGetD rec "city" (.str "unknown") = .ok .null ∧
    sinkCityName rec = .error .attributeError ∧
    upload_to_s3 b B rec = ([], .error .attributeError) ∧
    save_to_local_file B rec = ([], .error .attributeError) := by
  obtain ⟨fs2, ms, ws, hraw, hrec⟩ := extract_ok_shape _ now rec hx
  have hfs : fs = fs2 := Json.obj.inj hraw
  subst hfs
  have hcity : (lookupField fs "name").getD Json.null = Json.null := by rw [hname]; rfl
  have hlook : lookupField [("city", (lookupField fs "name").getD .null),
      ("temperature_f", (lookupField ms "temp").getD .null),
      ("humidity", (lookupField ms "humidity").getD .null),
      ("condition", (lookupField ws "description").getD .null),
      ("timestamp", .str (isoformat now)),
      ("raw", .obj fs)] "city" = some ((lookupField fs "name").getD .null) := rfl
  have hsink : sinkCityName rec = .error .attributeError := by
    rw [hrec]
    simp only [sinkCityName, pyGetD, Bind.bind, Except.bind, hlook, hcity]
    rfl
  refine ⟨⟨_, hrec, by rw [hlook, hcity]⟩, ?_, hsink, ?_, ?_⟩
  · rw [hrec]
    simp only [pyGetD]
    rw [hlook, hcity]
    rfl
  · simp only [upload_to_s3, hsink]
  · simp only [save_to_local_file, hsink]

/-- Witness for claim C10 at a response with no name field. -/
theorem null_city_never_stored_unknown_witness :
    (∃ rfields, recNull = .obj rfields ∧ lookupField rfields "city" = some .null) ∧
    pyGetD recNull "city" (.str "unknown") = .ok .null ∧
    sinkCityName recNull = .error .attributeError ∧
    upload_to_s3 "test-bucket" B0 recNull = ([], .error .attributeError) ∧
    save_to_local_file B0 recNull = ([], .error .attributeError) :=
  null_city_never_stored_unknown [] t0 recNull "test-bucket" B0 rfl rfl

end WDC
